import Mathlib

/-!
Shallow embedding of `client.go` from the clean-http-client repository
(package `http`): configuration, request assembly, execution with error
classification, and the fluent request builder.

Go strings are Lean `String`s, Go byte values are `Nat`s below 256, Go time
durations are modelled in seconds as `Nat`s, nilable Go pointers are
`Option`s, and a Go `(value, error)` return is `Except String value`.
A `context.Context` is modelled as an inductive tree recording how the
context was derived, which is all the code under verification inspects.
`log.Fatal` (print then `os.Exit(1)`) and nil-pointer dereferences are
modelled as distinguished outcomes of an explicit outcome type, since a Go
program never resumes after either.
-/

/-- Source: `const jsonType = "application/json"` in client.go. -/
def jsonType : String := "application/json"

/-- Source: `const defaultRequestTimeOut = 30 * time.Second`, in seconds. -/
def defaultRequestTimeOut : Nat := 30

/-- `net/http`: `http.StatusUnauthorized`. -/
def StatusUnauthorized : Nat := 401

/-- `net/http`: `http.StatusNotFound`. -/
def StatusNotFound : Nat := 404

/-- Source: struct `HttpConfig` in client.go. -/
structure HttpConfig where
  baseURL : String
  username : String
  password : String
  accept : String
deriving DecidableEq, Repr

/-- Source: `NewHttpConfig` in client.go: fields copied verbatim, `accept`
initialised to the JSON type and overwritten only when the argument is
non-empty. -/
def NewHttpConfig (baseURL : String) (username : String) (password : String)
    (accept : String) : HttpConfig :=
  let config : HttpConfig :=
    { baseURL := baseURL, username := username, password := password,
      accept := jsonType }
  if accept != "" then { config with accept := accept } else config

/-- Source: `NewDefaultHttpConfig` in client.go. -/
def NewDefaultHttpConfig (baseURL : String) : HttpConfig :=
  NewHttpConfig baseURL "" "" jsonType

/-- Model of Go `context.Context` derivation trees: the `Background()` and
`TODO()` singletons, and contexts derived by `WithTimeout`/`WithDeadline`,
`WithValue` and `WithCancel`.  Go compares contexts by interface identity, so
`Context.background` is equal only to itself, exactly as dec. equality on
this tree gives. -/
inductive Context where
  | background
  | todo
  | withTimeout (parent : Context) (seconds : Nat)
  | withValue (parent : Context)
  | withCancel (parent : Context)
deriving DecidableEq, Repr

/-- A context carries a deadline iff some ancestor was derived with
`WithTimeout`/`WithDeadline`. -/
def Context.hasDeadline : Context → Bool
  | .background => false
  | .todo => false
  | .withTimeout _ _ => true
  | .withValue parent => parent.hasDeadline
  | .withCancel parent => parent.hasDeadline

/-- Source: `createDefaultContext` in client.go.  The Go function returns the
pair `context.WithTimeout(parent, defaultRequestTimeOut)`; the caller in
`ExecuteRequest` discards the cancel function, so only the context is
modelled. -/
def createDefaultContext (ctx : Option Context) : Context :=
  match ctx with
  | some ctx => Context.withTimeout ctx defaultRequestTimeOut
  | none => Context.withTimeout Context.background defaultRequestTimeOut

/-- Splits a character list at the first occurrence of `c`: the part before,
and `some` the part after when `c` occurs. -/
def splitFirst : List Char → Char → List Char × Option (List Char)
  | [], _ => ([], none)
  | x :: xs, c =>
    if x = c then ([], some xs)
    else
      let rest := splitFirst xs c
      (x :: rest.1, rest.2)

/-- Returns the characters after the first `"://"` separator, if any. -/
def afterSchemeSep : List Char → Option (List Char)
  | [] => none
  | x :: xs =>
    if x = ':' then
      match xs with
      | a :: b :: rest => if a = '/' ∧ b = '/' then some rest else afterSchemeSep xs
      | _ => afterSchemeSep xs
    else afterSchemeSep xs

/-- Model of a parsed `net/url.URL`, restricted to the pieces this package
reads: the portion before the query (`scheme://host/path`), the raw query
string, and the host. -/
structure URL where
  preQuery : String
  rawQuery : String
  host : String
deriving DecidableEq, Repr

/-- Model of `net/url.Parse` on the fragment-free, escape-error-free inputs
this package deals in: fails (like Go's parser) when the URL contains an
ASCII control character, otherwise splits the query off at the first `?` and
extracts the host between `"://"` and the following `/`. -/
def urlParse (s : String) : Option URL :=
  if s.data.any (fun c => c.toNat < 0x20 || c.toNat = 0x7f) then none
  else
    let split := splitFirst s.data '?'
    let host :=
      match afterSchemeSep split.1 with
      | none => []
      | some rest => rest.takeWhile (fun c => c ≠ '/')
    some { preQuery := ⟨split.1⟩, rawQuery := ⟨(split.2.getD [])⟩, host := ⟨host⟩ }

/-- Reassembles the URL string, as `url.URL.String` does for URLs of this
restricted shape. -/
def URL.toString (u : URL) : String :=
  u.preQuery ++ (if u.rawQuery = "" then "" else "?" ++ u.rawQuery)

/-- Model of `http.Request`, restricted to the fields this package touches:
method, parsed URL, header map, optional body and the attached context
(`http.NewRequest` attaches `context.Background()`). -/
structure Request where
  method : String
  url : URL
  headers : List (String × String)
  body : Option String
  ctx : Context
deriving DecidableEq, Repr

/-- `http.Header.Set`: replaces any existing values for the key.  All keys
this package uses (`Content-Type`, `Accept`, `Authorization`) are already in
canonical MIME form, so key canonicalisation is the identity here. -/
def headerSet (hs : List (String × String)) (k : String) (v : String) :
    List (String × String) :=
  hs.filter (fun p => p.1 != k) ++ [(k, v)]

/-- `http.Header.Get` for the same canonical keys. -/
def headerGet (hs : List (String × String)) (k : String) : Option String :=
  (hs.find? (fun p => p.1 == k)).map Prod.snd

/-- `net/http`'s token-character test (`httpguts.IsTokenRune`): ASCII
letters, digits, and the RFC 7230 specials; `0x27` is the apostrophe and
`0x60` the backquote. -/
def isTokenChar (c : Char) : Bool :=
  c.isAlphanum ||
  c = '!' || c = '#' || c = '$' || c = '%' || c = '&' || c.toNat = 0x27 ||
  c = '*' || c = '+' || c = '-' || c = '.' || c = '^' || c = '_' ||
  c.toNat = 0x60 || c = '|' || c = '~'

/-- `net/http.validMethod`: non-empty and all token characters. -/
def validMethod (method : String) : Bool :=
  method.length > 0 && method.data.all isTokenChar

/-- `fmt`'s `%q` verb on the plain ASCII strings appearing here: wrap in
double quotes. -/
def goQuote (s : String) : String := "\"" ++ s ++ "\""

/-- Model of `http.NewRequest(method, url, body)` (which delegates to
`NewRequestWithContext(context.Background(), ...)`): an empty method
defaults to GET, an invalid method or an unparseable URL is a returned
error, and a fresh request carries an empty header map and the background
context. -/
def NewRequest (method : String) (urlStr : String) (body : Option String) :
    Except String Request :=
  let method := if method = "" then "GET" else method
  if !validMethod method then
    Except.error ("net/http: invalid method " ++ goQuote method)
  else
    match urlParse urlStr with
    | none => Except.error "net/url: invalid control character in URL"
    | some u =>
      Except.ok { method := method, url := u, headers := [], body := body,
                  ctx := Context.background }

/-- UTF-8 encoding of one character, as Go's `[]byte(string)` conversion
produces, byte values as `Nat`s. -/
def utf8Bytes (c : Char) : List Nat :=
  let n := c.toNat
  if n < 0x80 then [n]
  else if n < 0x800 then [0xC0 + n / 64, 0x80 + n % 64]
  else if n < 0x10000 then
    [0xE0 + n / 4096, 0x80 + (n / 64) % 64, 0x80 + n % 64]
  else
    [0xF0 + n / 262144, 0x80 + (n / 4096) % 64, 0x80 + (n / 64) % 64,
     0x80 + n % 64]

/-- The bytes of a Go string. -/
def strBytes (s : String) : List Nat :=
  (s.data.map utf8Bytes).flatten

/-- The standard base64 alphabet (`base64.StdEncoding`). -/
def base64Alphabet : String :=
  "ABCDEFGHIJKLMNOPQRSTUVWXYZabcdefghijklmnopqrstuvwxyz0123456789+/"

/-- The base64 digit for a 6-bit value. -/
def b64Char (n : Nat) : Char := base64Alphabet.data.getD n 'A'

/-- `base64.StdEncoding` over a byte list, with `=` padding. -/
def base64Encode : List Nat → List Char
  | b1 :: b2 :: b3 :: rest =>
    b64Char (b1 / 4) :: b64Char ((b1 % 4) * 16 + b2 / 16) ::
    b64Char ((b2 % 16) * 4 + b3 / 64) :: b64Char (b3 % 64) ::
    base64Encode rest
  | [b1, b2] =>
    [b64Char (b1 / 4), b64Char ((b1 % 4) * 16 + b2 / 16),
     b64Char ((b2 % 16) * 4), '=']
  | [b1] => [b64Char (b1 / 4), b64Char ((b1 % 4) * 16), '=', '=']
  | [] => []

/-- `base64.StdEncoding.EncodeToString([]byte(s))`. -/
def base64EncodeString (s : String) : String := ⟨base64Encode (strBytes s)⟩

/-- `net/http`'s `basicAuth` helper: base64 of `username:password`. -/
def basicAuth (username : String) (password : String) : String :=
  base64EncodeString (username ++ ":" ++ password)

/-- `http.Request.SetBasicAuth`. -/
def setBasicAuth (r : Request) (username : String) (password : String) :
    Request :=
  { r with headers :=
      headerSet r.headers "Authorization" ("Basic " ++ basicAuth username password) }

/-- `strings.TrimSuffix(s, "/")`: removes at most one trailing slash. -/
def TrimSuffixSlash (s : String) : String :=
  if s.data.getLast? = some '/' then ⟨s.data.dropLast⟩ else s

/-- `strings.TrimPrefix(s, "/")`: removes at most one leading slash. -/
def TrimPrefixSlash (s : String) : String :=
  if s.data.head? = some '/' then ⟨s.data.tail⟩ else s

/-- The URL string `createRequest` assembles: base URL with at most one
trailing slash trimmed, a single `/`, and the endpoint with at most one
leading slash trimmed (client.go, first lines of `createRequest`). -/
def createRequestURL (baseURL : String) (endpoint : String) : String :=
  TrimSuffixSlash baseURL ++ "/" ++ TrimPrefixSlash endpoint

/-- Source: `createRequest` in client.go.  The `ctx` parameter is declared by
the Go function but never used by it (callers attach their context
afterwards with `WithContext`). -/
def createRequest (ctx : Option Context) (baseURL : String) (endpoint : String)
    (method : String) (body : Option String) (username : String)
    (password : String) : Except String Request :=
  let _ := ctx
  match NewRequest method (createRequestURL baseURL endpoint) body with
  | Except.error e => Except.error e
  | Except.ok request =>
    let request :=
      { request with headers := headerSet request.headers "Content-Type" jsonType }
    let request :=
      { request with headers := headerSet request.headers "Accept" jsonType }
    let request :=
      if (username != "") && (password != "") then
        setBasicAuth request username password
      else request
    Except.ok request

/-- The `http.Transport` settings fixed by the constructors in client.go
(durations in seconds). -/
structure TransportSettings where
  dialTimeoutSeconds : Nat
  keepAliveSeconds : Nat
  maxIdleConns : Nat
  idleConnTimeoutSeconds : Nat
  tlsHandshakeTimeoutSeconds : Nat
  expectContinueTimeoutSeconds : Nat
deriving DecidableEq, Repr

/-- Model of an `http.Client`: its transport settings and overall timeout. -/
structure GoHttpClient where
  transport : TransportSettings
  timeoutSeconds : Nat
deriving DecidableEq, Repr

/-- The pooled client built inside `NewDefaultHttpClient` and
`NewHttpClientWithConfig`: dial timeout and keep-alive
`defaultRequestTimeOut`, 100 max idle connections, 90s idle timeout, 10s TLS
handshake timeout, 1s expect-continue timeout, 30s overall timeout. -/
def defaultPooledClient : GoHttpClient :=
  { transport :=
      { dialTimeoutSeconds := defaultRequestTimeOut,
        keepAliveSeconds := defaultRequestTimeOut,
        maxIdleConns := 100,
        idleConnTimeoutSeconds := 90,
        tlsHandshakeTimeoutSeconds := 10,
        expectContinueTimeoutSeconds := 1 },
    timeoutSeconds := defaultRequestTimeOut }

/-- Source: struct `HttpClient` in client.go. -/
structure HttpClient where
  client : GoHttpClient
  config : HttpConfig
deriving DecidableEq, Repr

/-- Outcome of a Go constructor that may `panic`: either the constructed
value or the panic message. -/
inductive ConstructorOutcome (α : Type) where
  | ok (value : α)
  | panicked (msg : String)
deriving DecidableEq, Repr

/-- Source: `NewDefaultHttpClient` in client.go. -/
def NewDefaultHttpClient (baseURL : String) : HttpClient :=
  { client := defaultPooledClient, config := NewDefaultHttpConfig baseURL }

/-- Source: `NewHttpClientWithConfig` in client.go: panics on a nil config,
otherwise pairs the default pooled transport with the given config. -/
def NewHttpClientWithConfig (config : Option HttpConfig) :
    ConstructorOutcome HttpClient :=
  match config with
  | none => ConstructorOutcome.panicked "config is nil"
  | some config =>
    ConstructorOutcome.ok { client := defaultPooledClient, config := config }

/-- Source: `NewHttpClientWithConfigAndClient` in client.go: panics on a nil
config or a nil client, otherwise pairs them. -/
def NewHttpClientWithConfigAndClient (config : Option HttpConfig)
    (client : Option GoHttpClient) : ConstructorOutcome HttpClient :=
  match config with
  | none => ConstructorOutcome.panicked "config is nil"
  | some config =>
    match client with
    | none => ConstructorOutcome.panicked "client is nil"
    | some client => ConstructorOutcome.ok { client := client, config := config }

/-- Model of an `http.Response`, restricted to the fields client.go reads:
the status code and the originating request (`resp.Request`). -/
structure Response where
  statusCode : Nat
  request : Request
deriving DecidableEq, Repr

/-- The typed errors declared in client.go: `UnauthorizedError` (whose
`Status` field is left at its zero value by `handleError`), `NotFoundError`,
and `RemoteError` with its `fmt.Errorf("%d: (%s)", status, url)` message. -/
inductive HttpError where
  | unauthorizedError (message : String) (url : String) (status : Nat)
  | notFoundError (message : String) (url : String)
  | remoteError (host : String) (message : String)
deriving DecidableEq, Repr

/-- Outcome of running `ExecuteRequest`/`handleError`: a response with nil
error, a returned `(response, error)` pair, process termination by
`log.Fatal`, or a nil-pointer-dereference panic. -/
inductive ExecOutcome where
  | ok (resp : Response)
  | err (resp : Option Response) (e : HttpError)
  | fatalExit (logged : String)
  | nilPanic
deriving DecidableEq, Repr

/-- Result of `http.Client.Do`: a response with nil error, or a non-nil
error beside an optional response (nil for transport-level failures such as
DNS errors, refused connections and timeouts). -/
inductive DoResult where
  | response (resp : Response)
  | doError (resp : Option Response) (msg : String)
deriving DecidableEq, Repr

/-- The statements of `handleError` after its `log.Fatal` line: classify by
`resp.StatusCode`.  Reading `resp.StatusCode` of a nil response is a
nil-pointer dereference. -/
def handleErrorBody (resp : Option Response) : ExecOutcome :=
  match resp with
  | none => ExecOutcome.nilPanic
  | some resp =>
    if resp.statusCode = StatusUnauthorized then
      ExecOutcome.err (some resp)
        (HttpError.unauthorizedError "Authentication required."
          (URL.toString resp.request.url) 0)
    else if resp.statusCode = StatusNotFound then
      ExecOutcome.err (some resp)
        (HttpError.notFoundError "Resource not found."
          (URL.toString resp.request.url))
    else
      ExecOutcome.err (some resp)
        (HttpError.remoteError resp.request.url.host
          (Nat.repr resp.statusCode ++ ": (" ++ URL.toString resp.request.url ++ ")"))

/-- Source: `handleError` in client.go.  Its first statement is
`log.Fatal(error)`, which prints the error and calls `os.Exit(1)`; execution
therefore ends there and the classification in `handleErrorBody` is never
reached. -/
def handleError (resp : Option Response) (e : String) : ExecOutcome :=
  let _ := handleErrorBody resp
  ExecOutcome.fatalExit e

/-- The context `ExecuteRequest` dispatches with: the first lines of
`ExecuteRequest` replace the context by a default-deadline context exactly
when `r.Context() == context.Background()`. -/
def executeRequestDispatchCtx (r : Request) : Context :=
  if r.ctx = Context.background then createDefaultContext (some r.ctx) else r.ctx

/-- Source: `ExecuteRequest` in client.go, parameterised by the behaviour of
the underlying `h.client.Do`: applies the default context when the request
carries the background context, dispatches, returns a received response with
nil error, and enters `handleError` when `Do` reports an error. -/
def ExecuteRequest (doSend : Request → DoResult) (r : Request) : ExecOutcome :=
  let r := { r with ctx := executeRequestDispatchCtx r }
  match doSend r with
  | DoResult.response resp => ExecOutcome.ok resp
  | DoResult.doError respOpt msg => handleError respOpt msg

/-- The value of a hexadecimal digit character, if it is one. -/
def hexVal (c : Char) : Option Nat :=
  if '0' ≤ c ∧ c ≤ '9' then some (c.toNat - 48)
  else if 'a' ≤ c ∧ c ≤ 'f' then some (c.toNat - 87)
  else if 'A' ≤ c ∧ c ≤ 'F' then some (c.toNat - 55)
  else none

/-- `net/url.QueryUnescape` on the ASCII subset: `+` becomes a space, `%XX`
decodes, a malformed escape is an error (`none`). -/
def queryUnescape : List Char → Option (List Char)
  | [] => some []
  | c :: rest =>
    if c = '+' then (queryUnescape rest).map (fun l => ' ' :: l)
    else if c = '%' then
      match rest with
      | a :: b :: rest2 =>
        match hexVal a, hexVal b with
        | some ha, some hb =>
          (queryUnescape rest2).map (fun l => Char.ofNat (ha * 16 + hb) :: l)
        | _, _ => none
      | _ => none
    else (queryUnescape rest).map (fun l => c :: l)

/-- `url.Values`: a map from key to the list of values added under it,
modelled as an association list (Go map iteration order never matters below
because `valuesEncode` sorts by key). -/
def Values := List (String × List String)

/-- `url.Values.Add`: appends the value under the key. -/
def valuesAdd (vs : List (String × List String)) (k : String) (v : String) :
    List (String × List String) :=
  if vs.any (fun p => p.1 == k) then
    vs.map (fun p => if p.1 == k then (p.1, p.2 ++ [v]) else p)
  else vs ++ [(k, [v])]

/-- One step of `net/url.ParseQuery`: handle the segment `seg` (between two
ampersand separators).  A segment containing a semicolon or failing to
unescape is skipped, as Go skips it after recording a non-fatal error that
`URL.Query()` then discards. -/
def parseQuerySegment (vs : List (String × List String)) (seg : List Char) :
    List (String × List String) :=
  if seg.isEmpty then vs
  else if seg.any (fun c => c = ';') then vs
  else
    let cut := splitFirst seg '='
    let value := cut.2.getD []
    match queryUnescape cut.1, queryUnescape value with
    | some key, some value => valuesAdd vs ⟨key⟩ ⟨value⟩
    | _, _ => vs

/-- Splits a character list on every occurrence of `c` (the segment
sequence `net/url.ParseQuery` walks with its cut-at-`&` loop). -/
def splitAll (c : Char) : List Char → List (List Char)
  | [] => [[]]
  | x :: xs =>
    if x = c then [] :: splitAll c xs
    else
      match splitAll c xs with
      | [] => [[x]]
      | seg :: segs => (x :: seg) :: segs

/-- `net/url.ParseQuery` as read through `URL.Query()` (parse errors
discarded): split on `&`, decode each `key=value` segment. -/
def parseQuery (rawQuery : String) : List (String × List String) :=
  (splitAll '&' rawQuery.data).foldl parseQuerySegment []

/-- Uppercase hexadecimal digit for a value below 16. -/
def toHexDigit (n : Nat) : Char :=
  if n < 10 then Char.ofNat (48 + n) else Char.ofNat (55 + n)

/-- Percent-escape of one byte: `%XX`. -/
def escapeByte (b : Nat) : List Char := ['%', toHexDigit (b / 16), toHexDigit (b % 16)]

/-- `net/url`'s `shouldEscape` for query encoding: everything except ASCII
alphanumerics and `-`, `_`, `.`, `~` is escaped (space handled separately). -/
def shouldEscapeQuery (c : Char) : Bool :=
  !(c.isAlphanum || c = '-' || c = '_' || c = '.' || c = '~')

/-- `net/url.QueryEscape`: space to `+`, unreserved characters kept, every
other byte percent-escaped. -/
def queryEscape (s : String) : String :=
  ⟨(s.data.map (fun c =>
      if c = ' ' then ['+']
      else if shouldEscapeQuery c then (utf8Bytes c).map escapeByte |>.flatten
      else [c])).flatten⟩

/-- Insertion into a key-sorted association list (keeps duplicates stable;
keys here are unique anyway). -/
def insertByKey (p : String × List String) :
    List (String × List String) → List (String × List String)
  | [] => [p]
  | q :: qs => if p.1 ≤ q.1 then p :: q :: qs else q :: insertByKey p qs

/-- Sorts an association list by key, as `url.Values.Encode` sorts the map
keys with `sort.Strings`. -/
def sortByKey (l : List (String × List String)) : List (String × List String) :=
  l.foldr insertByKey []

/-- `url.Values.Encode`: keys in sorted order, each value as
`escapedKey=escapedValue`, joined with `&`. -/
def valuesEncode (vs : List (String × List String)) : String :=
  String.intercalate "&"
    ((sortByKey vs).map (fun p =>
        p.2.map (fun v => queryEscape p.1 ++ "=" ++ queryEscape v))).flatten

/-- Source: struct `requestBuilder` in client.go.  The `queryParams` map is
`Option` of an association list with unique keys (a nil or non-nil Go map);
the `request` field is declared by the Go struct but never assigned. -/
structure requestBuilder where
  method : String := ""
  path : String := ""
  queryParams : Option (List (String × String)) := none
  body : Option String := none
  request : Option Request := none
  accept : String := ""
deriving DecidableEq, Repr

/-- Source: `NewRequestBuilder` in client.go: the zero-valued builder. -/
def NewRequestBuilder : requestBuilder := {}

/-- Source: builder method `Get`. -/
def requestBuilder.Get (rb : requestBuilder) : requestBuilder :=
  { rb with method := "GET" }

/-- Source: builder method `Post`. -/
def requestBuilder.Post (rb : requestBuilder) : requestBuilder :=
  { rb with method := "POST" }

/-- Source: builder method `Put`. -/
def requestBuilder.Put (rb : requestBuilder) : requestBuilder :=
  { rb with method := "PUT" }

/-- Source: builder method `Delete`. -/
def requestBuilder.Delete (rb : requestBuilder) : requestBuilder :=
  { rb with method := "DELETE" }

/-- Source: builder method `Path`. -/
def requestBuilder.Path (rb : requestBuilder) (path : String) : requestBuilder :=
  { rb with path := path }

/-- Source: builder method `WithContent`. -/
def requestBuilder.WithContent (rb : requestBuilder) (body : Option String) :
    requestBuilder :=
  { rb with body := body }

/-- Source: builder method `AsJson`. -/
def requestBuilder.AsJson (rb : requestBuilder) : requestBuilder :=
  { rb with accept := jsonType }

/-- Go map assignment `m[key] = value`: overwrite or add the key. -/
def qpUpsert (m : List (String × String)) (key : String) (value : String) :
    List (String × String) :=
  if m.any (fun p => p.1 == key) then
    m.map (fun p => if p.1 == key then (p.1, value) else p)
  else m ++ [(key, value)]

/-- Source: builder method `QueryParam`: allocates the map when nil, then
assigns the key. -/
def requestBuilder.QueryParam (rb : requestBuilder) (key : String)
    (value : String) : requestBuilder :=
  match rb.queryParams with
  | none => { rb with queryParams := some (qpUpsert [] key value) }
  | some m => { rb with queryParams := some (qpUpsert m key value) }

/-- Outcome of `requestBuilder.Build`: a built request with nil error, a
returned construction error, or a nil-pointer-dereference panic. -/
inductive BuildResult where
  | ok (request : Request)
  | err (msg : String)
  | nilPanic
deriving DecidableEq, Repr

/-- Source: `Build` in client.go, statement for statement: it calls
`http.NewRequest(rb.method, rb.path, rb.body)` and only afterwards checks
the error, but the query-parameter block sits between the call and the
check.  When the builder holds query parameters, the block evaluates
`request.URL.Query()`; if `NewRequest` failed, `request` is nil and that is
a nil-pointer dereference.  With a nil query-parameter map, the error (or
the finished request) is returned. -/
def requestBuilder.Build (rb : requestBuilder) : BuildResult :=
  match NewRequest rb.method rb.path rb.body, rb.queryParams with
  | Except.ok request, none => BuildResult.ok request
  | Except.error e, none => BuildResult.err e
  | Except.error _, some _ => BuildResult.nilPanic
  | Except.ok request, some qps =>
    let queryValues := parseQuery request.url.rawQuery
    let queryValues := qps.foldl (fun vs kv => valuesAdd vs kv.1 kv.2) queryValues
    let request :=
      { request with url := { request.url with rawQuery := valuesEncode queryValues } }
    BuildResult.ok request

/-- A parsed `http://h/x` URL, as `urlParse` produces it. -/
def fixtureURL : URL := { preQuery := "http://h/x", rawQuery := "", host := "h" }

/-- A plain GET request to `http://h/x` as `http.NewRequest` would build it. -/
def fixtureGetRequest : Request :=
  { method := "GET", url := fixtureURL, headers := [], body := none,
    ctx := Context.background }

/-- A 401 response received for `fixtureGetRequest`. -/
def fixtureResponse401 : Response := { statusCode := 401, request := fixtureGetRequest }

/-- A 404 response received for `fixtureGetRequest`. -/
def fixtureResponse404 : Response := { statusCode := 404, request := fixtureGetRequest }

/-- A 200 response received for `fixtureGetRequest`. -/
def fixtureResponse200 : Response := { statusCode := 200, request := fixtureGetRequest }

/-- `fixtureGetRequest` carrying `context.WithValue(context.Background(), ...)`:
a context that is not the background context and carries no deadline. -/
def fixtureValueCtxRequest : Request :=
  { fixtureGetRequest with ctx := Context.withValue Context.background }

/-- The request `createRequest(nil, "http://h", "x", "GET", nil, "user", "pass")`
produces. -/
def fixtureAuthRequest : Request :=
  { method := "GET",
    url := { preQuery := "http://h/x", rawQuery := "", host := "h" },
    headers := [("Content-Type", "application/json"),
                ("Accept", "application/json"),
                ("Authorization", "Basic dXNlcjpwYXNz")],
    body := none,
    ctx := Context.background }

/-- Builder state of
`NewRequestBuilder().Get().Path("http://h/\n").QueryParam("a", "b")`:
the path contains a control character, so request construction fails. -/
def fixtureBadPathBuilder : requestBuilder :=
  ((NewRequestBuilder.Get).Path "http://h/\n").QueryParam "a" "b"

/-- The same invalid-path builder without the query parameter. -/
def fixtureBadPathNoQueryBuilder : requestBuilder :=
  (NewRequestBuilder.Get).Path "http://h/\n"

/-- A request built by `http.NewRequest` starts with an empty header map. -/
theorem NewRequest_ok_headers (m u : String) (b : Option String) (r : Request)
    (h : NewRequest m u b = Except.ok r) : r.headers = [] := by
  unfold NewRequest at h
  simp only [] at h
  cases hv : validMethod (if m = "" then "GET" else m) with
  | false => rw [hv] at h; simp at h
  | true =>
    rw [hv] at h
    simp only [Bool.not_true, Bool.false_eq_true, if_false] at h
    cases hu : urlParse u with
    | none => rw [hu] at h; simp at h
    | some uu =>
      rw [hu] at h
      injection h with h
      rw [← h]

/-- `strings.TrimSuffix(s, "/")` removes a trailing slash when present. -/
theorem trimSuffixSlash_concat (b : String) : TrimSuffixSlash (b ++ "/") = b := by
  have hd : (b ++ "/").data = b.data ++ ['/'] := rfl
  simp [TrimSuffixSlash, hd, List.getLast?_concat, List.dropLast_concat]

/-- `strings.TrimPrefix(s, "/")` removes a leading slash when present. -/
theorem trimPrefixSlash_cons (p : String) : TrimPrefixSlash ("/" ++ p) = p := by
  have hd : ("/" ++ p).data = '/' :: p.data := rfl
  simp [TrimPrefixSlash, hd]

/-- `strings.TrimSuffix(s, "/")` keeps a string not ending in a slash. -/
theorem trimSuffixSlash_id (b : String) (hb : b.data.getLast? ≠ some '/') :
    TrimSuffixSlash b = b := by
  simp [TrimSuffixSlash, hb]

/-- `strings.TrimPrefix(s, "/")` keeps a string not starting with a slash. -/
theorem trimPrefixSlash_id (p : String) (hp : p.data.head? ≠ some '/') :
    TrimPrefixSlash p = p := by
  simp [TrimPrefixSlash, hp]

/-- C1: evaluation of the code at the failing input.  When the transport
call fails with a transport-level error (`Do` returns a nil response beside
a non-nil error, here a refused connection), `ExecuteRequest` reaches
`handleError`, whose first statement `log.Fatal` terminates the process;
the error is never returned to the caller as a recoverable value, contrary
to the claim. -/
theorem executeRequest_transport_error_is_fatal :
    ExecuteRequest
      (fun _ => DoResult.doError none "dial tcp: connection refused")
      fixtureGetRequest
      = ExecOutcome.fatalExit "dial tcp: connection refused" := rfl

/-- C2: evaluation of the code at the failing inputs.  On responses received
with no transport error, `ExecuteRequest` performs no status-code
classification at all: a 401 response and a 404 response are returned to
the caller with a nil error exactly like a 200 response (`handleError` runs
only when `Do` reports a non-nil error), contrary to the claim that 401
yields an Unauthorized error and 404 a Not Found error. -/
theorem executeRequest_passes_all_statuses_through :
    ExecuteRequest (fun _ => DoResult.response fixtureResponse401) fixtureGetRequest
      = ExecOutcome.ok fixtureResponse401 ∧
    ExecuteRequest (fun _ => DoResult.response fixtureResponse404) fixtureGetRequest
      = ExecOutcome.ok fixtureResponse404 ∧
    ExecuteRequest (fun _ => DoResult.response fixtureResponse200) fixtureGetRequest
      = ExecOutcome.ok fixtureResponse200 :=
  ⟨rfl, rfl, rfl⟩

/-- C3: `createRequest` trims exactly one trailing slash from the base URL
and exactly one leading slash from the path and joins with a single slash:
for a base URL `b` not ending in a slash and a path `p` not starting with
one, all four with/without-slash combinations assemble to `b ++ "/" ++ p`,
with exactly one separating slash. -/
theorem createRequest_url_single_slash (b p : String)
    (hb : b.data.getLast? ≠ some '/') (hp : p.data.head? ≠ some '/') :
    TrimSuffixSlash (b ++ "/") = b ∧
    TrimPrefixSlash ("/" ++ p) = p ∧
    createRequestURL b p = b ++ "/" ++ p ∧
    createRequestURL (b ++ "/") p = b ++ "/" ++ p ∧
    createRequestURL b ("/" ++ p) = b ++ "/" ++ p ∧
    createRequestURL (b ++ "/") ("/" ++ p) = b ++ "/" ++ p := by
  refine ⟨trimSuffixSlash_concat b, trimPrefixSlash_cons p, ?_, ?_, ?_, ?_⟩ <;>
    rw [createRequestURL] <;>
    first
      | rw [trimSuffixSlash_id b hb, trimPrefixSlash_id p hp]
      | rw [trimSuffixSlash_concat, trimPrefixSlash_id p hp]
      | rw [trimSuffixSlash_id b hb, trimPrefixSlash_cons]
      | rw [trimSuffixSlash_concat, trimPrefixSlash_cons]

/-- C3 witness: the spec's own example, base `"https://h/api/"` with path
`"/items"`, assembles to `"https://h/api/items"`. -/
theorem createRequest_url_single_slash_witness :
    createRequestURL "https://h/api/" "/items" = "https://h/api" ++ "/" ++ "items" :=
  (createRequest_url_single_slash "https://h/api" "items" (by decide) (by decide)).2.2.2.2.2

/-- C4: every request `createRequest` produces carries `Content-Type` and
`Accept` headers both equal to the fixed JSON media type; the configured
accept value is not even passed to `createRequest`, so the headers are
independent of it. -/
theorem createRequest_sets_json_headers (ctx : Option Context)
    (b e m : String) (body : Option String) (u p : String) (req : Request)
    (h : createRequest ctx b e m body u p = Except.ok req) :
    headerGet req.headers "Content-Type" = some jsonType ∧
    headerGet req.headers "Accept" = some jsonType := by
  unfold createRequest at h
  cases hn : NewRequest m (createRequestURL b e) body with
  | error e0 => rw [hn] at h; exact absurd h (by simp)
  | ok r0 =>
    rw [hn] at h
    simp only [] at h
    have h0 : r0.headers = [] := NewRequest_ok_headers _ _ _ _ hn
    by_cases hup : ((u != "") && (p != "")) = true
    · rw [if_pos hup] at h
      injection h with h
      rw [← h]
      simp only [setBasicAuth, h0]
      exact ⟨rfl, rfl⟩
    · rw [if_neg hup] at h
      injection h with h
      rw [← h, h0]
      exact ⟨rfl, rfl⟩

/-- C4 witness: the concrete request built for
`createRequest(nil, "http://h", "x", "GET", nil, "user", "pass")` carries
both JSON headers. -/
theorem createRequest_sets_json_headers_witness :
    headerGet fixtureAuthRequest.headers "Content-Type" = some jsonType ∧
    headerGet fixtureAuthRequest.headers "Accept" = some jsonType :=
  createRequest_sets_json_headers none "http://h" "x" "GET" none "user" "pass"
    fixtureAuthRequest rfl

/-- C5 counterexample: a request whose context is
`context.WithValue(context.Background(), ...)` carries no deadline, yet
`ExecuteRequest` dispatches it unchanged and without any deadline, because
its guard compares the context against `context.Background()` instead of
asking for a deadline; the echoed response shows the request went out with
its context intact. -/
theorem executeRequest_no_default_deadline_for_value_context :
    Context.hasDeadline fixtureValueCtxRequest.ctx = false ∧
    Context.hasDeadline (executeRequestDispatchCtx fixtureValueCtxRequest) = false ∧
    ExecuteRequest (fun r => DoResult.response { statusCode := 200, request := r })
      fixtureValueCtxRequest
      = ExecOutcome.ok { statusCode := 200, request := fixtureValueCtxRequest } :=
  ⟨rfl, rfl, rfl⟩

/-- C5 as amended: `ExecuteRequest` applies the default 30-second deadline
exactly when the request's context is the background context; the dispatched
request carries a deadline iff its context is background (default applied)
or the caller's context already carried one. -/
theorem executeRequest_default_deadline_iff_background (r : Request) :
    Context.hasDeadline (executeRequestDispatchCtx r)
      = (decide (r.ctx = Context.background) || Context.hasDeadline r.ctx) ∧
    (r.ctx = Context.background →
      executeRequestDispatchCtx r
        = Context.withTimeout Context.background defaultRequestTimeOut) := by
  constructor
  · by_cases hb : r.ctx = Context.background
    · simp [executeRequestDispatchCtx, createDefaultContext, hb, Context.hasDeadline]
    · simp [executeRequestDispatchCtx, hb]
  · intro hb
    simp [executeRequestDispatchCtx, createDefaultContext, hb]

/-- C5 witness: a request built by `http.NewRequest` carries the background
context, and the default 30-second deadline is applied to it. -/
theorem executeRequest_default_deadline_iff_background_witness :
    executeRequestDispatchCtx fixtureGetRequest
      = Context.withTimeout Context.background defaultRequestTimeOut :=
  (executeRequest_default_deadline_iff_background fixtureGetRequest).2 rfl

/-- C6: evaluation of the code at the failing input.  For the builder state
`NewRequestBuilder().Get().Path("http://h/\n").QueryParam("a", "b")` the
path is invalid (control character), `http.NewRequest` fails, and `Build`
dereferences the nil request in its query-parameter block — which precedes
the error check — instead of returning the construction error; only without
query parameters is the error returned as the claim demands. -/
theorem build_nil_dereference_on_invalid_path_with_query :
    requestBuilder.Build fixtureBadPathBuilder = BuildResult.nilPanic ∧
    requestBuilder.Build fixtureBadPathNoQueryBuilder
      = BuildResult.err "net/url: invalid control character in URL" :=
  ⟨rfl, rfl⟩

/-- C7: the request `createRequest` produces carries
`Authorization: Basic base64(username ++ ":" ++ password)` exactly when both
credentials are non-empty, and no `Authorization` header otherwise. -/
theorem createRequest_basic_auth_header (ctx : Option Context)
    (b e m : String) (body : Option String) (u p : String) (req : Request)
    (h : createRequest ctx b e m body u p = Except.ok req) :
    headerGet req.headers "Authorization" =
      (if (u != "") && (p != "") then
        some ("Basic " ++ base64EncodeString (u ++ ":" ++ p))
      else none) := by
  unfold createRequest at h
  cases hn : NewRequest m (createRequestURL b e) body with
  | error e0 => rw [hn] at h; exact absurd h (by simp)
  | ok r0 =>
    rw [hn] at h
    simp only [] at h
    have h0 : r0.headers = [] := NewRequest_ok_headers _ _ _ _ hn
    by_cases hup : ((u != "") && (p != "")) = true
    · rw [if_pos hup] at h
      injection h with h
      rw [← h, if_pos hup]
      simp only [setBasicAuth, h0]
      rfl
    · rw [if_neg hup] at h
      injection h with h
      rw [← h, if_neg hup, h0]
      rfl

/-- C7 witness: with username `"user"` and password `"pass"` the produced
request carries `Authorization: Basic dXNlcjpwYXNz`, the base64 encoding of
`"user:pass"`. -/
theorem createRequest_basic_auth_header_witness :
    headerGet fixtureAuthRequest.headers "Authorization" =
      (if ("user" != "") && ("pass" != "") then
        some ("Basic " ++ base64EncodeString ("user" ++ ":" ++ "pass"))
      else none) :=
  createRequest_basic_auth_header none "http://h" "x" "GET" none "user" "pass"
    fixtureAuthRequest rfl

/-- C8: `NewHttpConfig` copies base URL, username and password verbatim and
sets `accept` to the JSON media type exactly when the accept argument is
empty, to the supplied value otherwise; `NewDefaultHttpConfig baseURL`
equals `NewHttpConfig baseURL "" "" jsonType`. -/
theorem newHttpConfig_accept_defaults (b u p a : String) :
    NewHttpConfig b u p a
      = { baseURL := b, username := u, password := p,
          accept := if a = "" then jsonType else a } ∧
    NewDefaultHttpConfig b = NewHttpConfig b "" "" jsonType := by
  constructor
  · by_cases ha : a = ""
    · simp [NewHttpConfig, ha]
    · simp [NewHttpConfig, ha]
  · rfl

/-- C9: the explicit-config constructors panic (terminate abnormally) on a
nil configuration or nil client, and return normally when all arguments are
present. -/
theorem httpClient_constructors_nil_panic :
    NewHttpClientWithConfig none = ConstructorOutcome.panicked "config is nil" ∧
    (∀ client : Option GoHttpClient,
      NewHttpClientWithConfigAndClient none client
        = ConstructorOutcome.panicked "config is nil") ∧
    (∀ config : HttpConfig,
      NewHttpClientWithConfigAndClient (some config) none
        = ConstructorOutcome.panicked "client is nil") ∧
    (∀ config : HttpConfig,
      NewHttpClientWithConfig (some config)
        = ConstructorOutcome.ok { client := defaultPooledClient, config := config }) ∧
    (∀ config : HttpConfig, ∀ client : GoHttpClient,
      NewHttpClientWithConfigAndClient (some config) (some client)
        = ConstructorOutcome.ok { client := client, config := config }) :=
  ⟨rfl, fun _ => rfl, fun _ => rfl, fun _ => rfl, fun _ _ => rfl⟩

/-- C10 counterexample: on a transport-failure input (nil response beside
the error), `handleError` does not dereference the response: its first
statement `log.Fatal` terminates the process, so the outcome is a fatal
exit, not a nil-pointer dereference. -/
theorem handleError_exits_before_dereference :
    handleError none "read tcp: i/o timeout"
      = ExecOutcome.fatalExit "read tcp: i/o timeout" ∧
    handleError none "read tcp: i/o timeout" ≠ ExecOutcome.nilPanic :=
  ⟨rfl, by decide⟩

/-- C10 as amended: on every input, `handleError` terminates the process via
its fatal log before any status-code classification runs, so it never
returns normally on transport-failure inputs; and the classification
statements after the fatal log, were they ever reached on a transport
failure, would dereference the nil response. -/
theorem handleError_fatal_before_classification (resp : Option Response) (e : String) :
    handleError resp e = ExecOutcome.fatalExit e ∧
    handleErrorBody none = ExecOutcome.nilPanic :=
  ⟨rfl, rfl⟩
